import Mathlib

/-!
Verification of the core of the LitModels checkpoint integration layer
(`src/litmodels/integrations/checkpoints.py` and
`src/litmodels/io/cloud.py`), shallowly embedded in Lean.

Two components are modelled:

* `ModelUploadManager` — the asynchronous upload queue: an unbounded FIFO
  queue of `(registry_name, filepath)` tasks, an integer `pending_count`,
  a `queue_upload` producer operation and a single sequential worker loop
  (`_upload_worker`) that dequeues tasks one at a time, invokes the
  external upload capability, catches any failure (logging it as a
  warning) and decrements `pending_count` on every exit path.  Draining
  (the `queue.join()` performed by `on_fit_end`) is modelled as running
  the worker until the queue is empty.

* `LitModelCheckpointMixin` name handling — `__init__` strips leading and
  trailing slashes from the given model name, `_update_model_name`
  resolves a possibly-partial registry name to a fully qualified
  `org/teamspace/model` string using the default model name, the ambient
  teamspace (`_resolve_teamspace`) and the available teamspaces
  (`_list_available_teamspaces`), and `_upload_model` enqueues an upload
  task, raising when the registry name is unset.

External collaborators (the SDK upload call, the ambient-teamspace lookup
and the teamspace listing) are passed in as parameters, exactly as the
spec treats them: abstract capability interfaces.
-/

namespace LitModels

/-! ### Data model: upload tasks and the manager state -/

/-- An upload task: the `(registry_name, filepath)` pair put on the queue
by `ModelUploadManager.queue_upload`. -/
structure UploadTask where
  registry_name : String
  filepath : String
deriving DecidableEq, Repr

/-- The mutable state of `ModelUploadManager`: the FIFO queue and the
`pending_count` counter (a Python `int`, hence modelled as `Int`). -/
structure ManagerState where
  queue : List UploadTask
  pending_count : Int
deriving DecidableEq, Repr

/-- `ModelUploadManager.__init__`: empty queue, `pending_count = 0`. -/
def initManager : ManagerState := { queue := [], pending_count := 0 }

/-- `ModelUploadManager.queue_upload`: increment `pending_count` and put
the task on the queue. -/
def queue_upload (s : ManagerState) (registry_name filepath : String) :
    ManagerState :=
  { queue := s.queue ++ [{ registry_name := registry_name, filepath := filepath }],
    pending_count := s.pending_count + 1 }

/-- A log line emitted by the worker: `rank_zero_debug` on success,
`rank_zero_warn` on failure. -/
inductive LogEntry where
  | debug (msg : String)
  | warning (msg : String)
deriving DecidableEq, Repr

/-- The external upload capability (`upload_model(name=..., model=...)`):
it either succeeds or raises an exception carrying a message. -/
abbrev UploadCap := String → String → Except String Unit

/-- The `try/except` body of `_upload_worker` for one task: invoke the
upload capability and produce the corresponding log line; an exception is
caught and turned into a warning, never re-raised. -/
def processLog (upload : UploadCap) (t : UploadTask) : LogEntry :=
  match upload t.registry_name t.filepath with
  | Except.ok _ =>
      LogEntry.debug ("Successfully uploaded model: " ++ t.registry_name)
  | Except.error ex =>
      LogEntry.warning
        ("Failed to upload model " ++ t.registry_name ++ " with "
          ++ t.filepath ++ ":\n" ++ ex)

/-- One iteration of the `_upload_worker` loop on a non-empty queue:
dequeue the head task, invoke the upload capability on it (producing a
log line), and — on every exit path, via the `finally` block — decrement
`pending_count`.  Returns `none` when the queue is empty (the real worker
blocks there). -/
def workerStep (upload : UploadCap) (s : ManagerState) :
    Option (ManagerState × UploadTask × LogEntry) :=
  match s.queue with
  | [] => none
  | t :: rest =>
      some ({ queue := rest, pending_count := s.pending_count - 1 },
            t, processLog upload t)

/-- The outcome of draining the queue: the final manager state, the list
of upload-capability invocations in the order the worker performed them,
and the log lines in order. -/
structure DrainResult where
  state : ManagerState
  invocations : List UploadTask
  logs : List LogEntry
deriving DecidableEq, Repr

/-- The worker loop run over a queue `q` with current pending count `p`:
each task is dequeued in FIFO order, the upload capability is invoked on
it exactly once, and `pending_count` is decremented once per task. -/
def drainList (upload : UploadCap) : List UploadTask → Int → DrainResult
  | [], p => { state := { queue := [], pending_count := p },
               invocations := [], logs := [] }
  | t :: rest, p =>
      let r := drainList upload rest (p - 1)
      { state := r.state,
        invocations := t :: r.invocations,
        logs := processLog upload t :: r.logs }

/-- `drain` (the `queue.join()` in `on_fit_end`): block until the worker
has processed every queued task. -/
def drain (upload : UploadCap) (s : ManagerState) : DrainResult :=
  drainList upload s.queue s.pending_count

/-- Enqueue a whole list of `(registry_name, filepath)` requests in
order, via `queue_upload`. -/
def enqueueAll (reqs : List (String × String)) (s : ManagerState) :
    ManagerState :=
  reqs.foldl (fun st r => queue_upload st r.1 r.2) s

/-- States reachable from `s` by any interleaving of `queue_upload`
calls and worker iterations. -/
inductive Reachable (upload : UploadCap) : ManagerState → ManagerState → Prop
  | refl (s : ManagerState) : Reachable upload s s
  | enqueue {s s2 : ManagerState} (n p : String) :
      Reachable upload s s2 → Reachable upload s (queue_upload s2 n p)
  | step {s s2 s3 : ManagerState} {t : UploadTask} {log : LogEntry} :
      Reachable upload s s2 →
      workerStep upload s2 = some (s3, t, log) →
      Reachable upload s s3

/-! ### Data model: registry names, teamspaces, resolution -/

/-- A single-quote character, used in the error messages of
`_update_model_name`. -/
def squote : String := String.singleton (Char.ofNat 39)

/-- `s.count("/")` on a Python string: the number of slash characters. -/
def countSlashes (s : String) : Nat :=
  (s.data.filter (fun c => c = '/')).length

/-- The external `Teamspace` entity, represented as the core sees it:
an owner name (`teamspace.owner.name`) and a teamspace name
(`teamspace.name`). -/
structure Teamspace where
  owner_name : String
  name : String
deriving DecidableEq, Repr

/-- The exceptions `_update_model_name` can raise: `ValueError` for a name
with more than two slashes, `RuntimeError` for an unresolvable teamspace. -/
inductive ResolveError where
  | valueError (msg : String)
  | runtimeError (msg : String)
deriving DecidableEq, Repr

/-- Python truthiness of `self.model_registry`: falsy when it is `None` or
the empty string. -/
def falsyName : Option String → Bool
  | none => true
  | some s => s == ""

/-- The message of the `ValueError` raised for a name with more than two
slashes. -/
def invalidNameMsg (reg : String) : String :=
  "Invalid model name: " ++ squote ++ reg ++ squote
    ++ ". It should not contain more than two " ++ squote ++ "/" ++ squote
    ++ " character."

/-- The message of the `RuntimeError` raised when no ambient teamspace is
set and the available teamspaces do not single out one choice; the
available names are joined by newline-tab, after a first newline. -/
def multipleTeamspacesMsg (ts_names : List String) : String :=
  "Teamspace is not defined and there are multiple teamspaces available:\n"
    ++ String.intercalate "\n\t" ts_names

/-- `LitModelCheckpointMixin._update_model_name`, with its external
collaborators passed as values: `default_model_name` is the result of
`self.default_model_name(pl_model)`, `ambient_teamspace` the result of
`_resolve_teamspace(None, None, None)`, and `available_ts_names` the key
list of `_list_available_teamspaces()`.  Returns the resolved
`model_registry` or the exception raised. -/
def update_model_name (model_registry : Option String)
    (default_model_name : String) (ambient_teamspace : Option Teamspace)
    (available_ts_names : List String) : Except ResolveError String :=
  let reg := model_registry.getD ""
  let count := if falsyName model_registry then 0 else countSlashes reg
  if 2 < count then
    Except.error (ResolveError.valueError (invalidNameMsg reg))
  else if count = 2 then
    Except.ok reg
  else if count = 1 then
    Except.ok (reg ++ "/" ++ default_model_name)
  else
    let reg1 := if falsyName model_registry then default_model_name else reg
    match ambient_teamspace with
    | some ts => Except.ok (ts.owner_name ++ "/" ++ ts.name ++ "/" ++ reg1)
    | none =>
        match available_ts_names with
        | [ts0] => Except.ok (ts0 ++ "/" ++ reg1)
        | _ =>
            Except.error (ResolveError.runtimeError
              (multipleTeamspacesMsg available_ts_names))

/-- Python `s.strip("/")`: remove every slash from the beginning and the
end of the string. -/
def strip_slashes (s : String) : String :=
  String.mk (((s.data.dropWhile (fun c => c = '/')).reverse.dropWhile
      (fun c => c = '/')).reverse)

/-- The name handling of `LitModelCheckpointMixin.__init__`:
`model_name.strip("/") if model_name else None`. -/
def initModelRegistry (model_name : Option String) : Option String :=
  match model_name with
  | none => none
  | some s => if s == "" then none else some (strip_slashes s)

/-- The message of the `RuntimeError` raised by `_upload_model` when the
registry name is unset. -/
def unsetNameMsg : String :=
  "Model name is not specified neither updated by `setup` method via Trainer."
    ++ " Please set the model name before uploading or ensure that `setup` method is called."

/-- `LitModelCheckpointMixin._upload_model`: raise a `RuntimeError` when
`self.model_registry` is unset (`None` or empty), otherwise enqueue
exactly one `(model_registry, filepath)` task on the singleton manager.
An `Except.error` result models the raise: the manager state is left
untouched (no successor state is produced). -/
def upload_model_hook (model_registry : Option String) (filepath : String)
    (mgr : ManagerState) : Except String ManagerState :=
  if falsyName model_registry then
    Except.error unsetNameMsg
  else
    Except.ok (queue_upload mgr (model_registry.getD "") filepath)

/-- The condition on a registry name under which `_update_model_name`
takes its zero-separator branch: the name is absent or contains no slash. -/
def zeroSepName : Option String → Prop
  | none => True
  | some s => countSlashes s = 0

/-- The model component used by the zero-separator branch: the default
model name when the registry name is falsy, the name itself otherwise. -/
def zeroSepModel (model_registry : Option String)
    (default_model_name : String) : String :=
  if falsyName model_registry then default_model_name
  else model_registry.getD ""

/-- Slash-freeness of the components of an optional ambient teamspace. -/
def teamspaceSlashFree : Option Teamspace → Prop
  | none => True
  | some ts => countSlashes ts.owner_name = 0 ∧ countSlashes ts.name = 0

/-! ### Basic lemmas about the manager -/

theorem enqueueAll_queue (reqs : List (String × String)) (s : ManagerState) :
    (enqueueAll reqs s).queue
      = s.queue ++ reqs.map (fun r => { registry_name := r.1, filepath := r.2 }) := by
  induction reqs generalizing s with
  | nil => simp [enqueueAll]
  | cons r rest ih =>
      simp [enqueueAll, queue_upload] at *
      rw [ih]
      simp [queue_upload]

theorem enqueueAll_pending (reqs : List (String × String)) (s : ManagerState) :
    (enqueueAll reqs s).pending_count = s.pending_count + reqs.length := by
  induction reqs generalizing s with
  | nil => simp [enqueueAll]
  | cons r rest ih =>
      simp [enqueueAll] at *
      rw [ih]
      simp [queue_upload]
      omega

theorem drainList_invocations (upload : UploadCap) (q : List UploadTask) (p : Int) :
    (drainList upload q p).invocations = q := by
  induction q generalizing p with
  | nil => simp [drainList]
  | cons t rest ih => simp [drainList, ih]

theorem drainList_pending (upload : UploadCap) (q : List UploadTask) (p : Int) :
    (drainList upload q p).state.pending_count = p - q.length := by
  induction q generalizing p with
  | nil => simp [drainList]
  | cons t rest ih =>
      simp [drainList, ih]
      omega

theorem drainList_logs (upload : UploadCap) (q : List UploadTask) (p : Int) :
    (drainList upload q p).logs = q.map (processLog upload) := by
  induction q generalizing p with
  | nil => simp [drainList]
  | cons t rest ih => simp [drainList, ih]

/-- The fundamental invariant: from a fresh manager, any interleaving of
`queue_upload` calls and worker iterations keeps `pending_count` equal to
the queue length. -/
theorem reachable_pending_eq_length (upload : UploadCap) (s : ManagerState)
    (h : Reachable upload initManager s) :
    s.pending_count = (s.queue.length : Int) := by
  induction h with
  | refl => simp [initManager]
  | enqueue n p _ ih =>
      simp [queue_upload, ih]
  | step _ hstep ih =>
      rename_i s2 s3 t log _
      unfold workerStep at hstep
      cases hq : s2.queue with
      | nil => rw [hq] at hstep; simp at hstep
      | cons t0 rest =>
          rw [hq] at hstep
          simp at hstep
          obtain ⟨h1, _, _⟩ := hstep
          rw [← h1]
          rw [ih, hq] at *
          simp

/-! ### Basic lemmas about the resolver -/

theorem countSlashes_empty : countSlashes "" = 0 := rfl

theorem countSlashes_append (a b : String) :
    countSlashes (a ++ b) = countSlashes a + countSlashes b := by
  simp [countSlashes, String.data_append]

theorem countSlashes_ne_empty (s : String) (h : countSlashes s ≠ 0) :
    (s == "") = false := by
  by_cases h2 : s = ""
  · subst h2; exact absurd rfl h
  · simp [h2]

/-- Evaluation of `_update_model_name` when the stored name is falsy
(`None` or empty): the zero-separator branch runs on the default model
name. -/
theorem update_model_name_falsy (reg : Option String) (d : String)
    (amb : Option Teamspace) (avail : List String)
    (h : falsyName reg = true) :
    update_model_name reg d amb avail
      = match amb with
        | some ts => Except.ok (ts.owner_name ++ "/" ++ ts.name ++ "/" ++ d)
        | none =>
            match avail with
            | [t] => Except.ok (t ++ "/" ++ d)
            | _ => Except.error (ResolveError.runtimeError
                (multipleTeamspacesMsg avail)) := by
  simp [update_model_name, h]

/-- Evaluation of `_update_model_name` on a non-empty slash-free name:
the zero-separator branch runs on the name itself. -/
theorem update_model_name_zero_sep (s d : String)
    (amb : Option Teamspace) (avail : List String)
    (hne : (s == "") = false) (h0 : countSlashes s = 0) :
    update_model_name (some s) d amb avail
      = match amb with
        | some ts => Except.ok (ts.owner_name ++ "/" ++ ts.name ++ "/" ++ s)
        | none =>
            match avail with
            | [t] => Except.ok (t ++ "/" ++ s)
            | _ => Except.error (ResolveError.runtimeError
                (multipleTeamspacesMsg avail)) := by
  simp [update_model_name, falsyName, hne, h0]

/-- Evaluation of `_update_model_name` on a one-separator name: the
default model name is appended. -/
theorem update_model_name_one_sep (s d : String) (amb : Option Teamspace)
    (avail : List String) (h1 : countSlashes s = 1) :
    update_model_name (some s) d amb avail = Except.ok (s ++ "/" ++ d) := by
  have hne : (s == "") = false := countSlashes_ne_empty s (by omega)
  simp [update_model_name, falsyName, hne, h1]

/-- Evaluation of `_update_model_name` on a two-separator name: returned
unchanged. -/
theorem update_model_name_two_sep (s d : String) (amb : Option Teamspace)
    (avail : List String) (h2 : countSlashes s = 2) :
    update_model_name (some s) d amb avail = Except.ok s := by
  have hne : (s == "") = false := countSlashes_ne_empty s (by omega)
  simp [update_model_name, falsyName, hne, h2]

/-- Evaluation of `_update_model_name` on a name with more than two
separators: the `ValueError` is raised. -/
theorem update_model_name_gt_two (s d : String) (amb : Option Teamspace)
    (avail : List String) (h : 2 < countSlashes s) :
    update_model_name (some s) d amb avail
      = Except.error (ResolveError.valueError (invalidNameMsg s)) := by
  have hne : (s == "") = false := countSlashes_ne_empty s (by omega)
  simp [update_model_name, falsyName, hne, h]

/-! ### Lemmas about slash stripping -/

theorem dropWhile_slash_decomp (l : List Char) :
    ∃ a : Nat, l = List.replicate a '/' ++ l.dropWhile (fun c => c = '/') := by
  induction l with
  | nil => exact ⟨0, rfl⟩
  | cons c l ih =>
      by_cases hc : c = '/'
      · obtain ⟨a, ha⟩ := ih
        subst hc
        refine ⟨a + 1, ?_⟩
        rw [List.dropWhile_cons]
        simpa [List.replicate_succ] using ha
      · refine ⟨0, ?_⟩
        rw [List.dropWhile_cons]
        simp [hc]

theorem dropWhile_slash_head (l : List Char) (x : Char)
    (h : (l.dropWhile (fun c => c = '/')).head? = some x) : x ≠ '/' := by
  induction l with
  | nil => simp [List.dropWhile] at h
  | cons c l ih =>
      rw [List.dropWhile_cons] at h
      by_cases hc : c = '/'
      · simp [hc] at h
        exact ih h
      · simp [hc] at h
        rw [← h]
        exact hc

theorem rstrip_slash_decomp (l : List Char) :
    ∃ b : Nat,
      l = (l.reverse.dropWhile (fun c => c = '/')).reverse
          ++ List.replicate b '/' := by
  obtain ⟨b, hb⟩ := dropWhile_slash_decomp l.reverse
  refine ⟨b, ?_⟩
  conv_lhs => rw [← List.reverse_reverse l, hb]
  rw [List.reverse_append, List.reverse_replicate]

/-- Every character list splits as leading slashes, the slash-stripped
core, and trailing slashes. -/
theorem strip_core_decomp (l : List Char) :
    ∃ a b : Nat,
      l = List.replicate a '/'
          ++ ((l.dropWhile (fun c => c = '/')).reverse.dropWhile
              (fun c => c = '/')).reverse
          ++ List.replicate b '/' := by
  obtain ⟨a, ha⟩ := dropWhile_slash_decomp l
  obtain ⟨b, hb⟩ := rstrip_slash_decomp (l.dropWhile (fun c => c = '/'))
  refine ⟨a, b, ?_⟩
  rw [List.append_assoc, ← hb, ← ha]

/-- `strip_slashes` removes exactly the leading and trailing run of
slashes: the original string is leading slashes, the stripped core, and
trailing slashes. -/
theorem strip_slashes_decomp (s : String) :
    ∃ a b : Nat,
      s.data = List.replicate a '/' ++ (strip_slashes s).data
          ++ List.replicate b '/' :=
  strip_core_decomp s.data

/-- The stripped core neither starts nor ends with a slash. -/
theorem strip_slashes_no_border_slash (s : String) (x : Char) :
    ((strip_slashes s).data.head? = some x → x ≠ '/') ∧
    ((strip_slashes s).data.getLast? = some x → x ≠ '/') := by
  have hdata : (strip_slashes s).data
      = ((s.data.dropWhile (fun c => c = '/')).reverse.dropWhile
          (fun c => c = '/')).reverse := rfl
  constructor
  · intro hx
    obtain ⟨b, hb⟩ := rstrip_slash_decomp (s.data.dropWhile (fun c => c = '/'))
    rw [hdata] at hx
    have hxd : (s.data.dropWhile (fun c => c = '/')).head? = some x := by
      rw [hb]
      cases hcore : ((s.data.dropWhile (fun c => c = '/')).reverse.dropWhile
          (fun c => c = '/')).reverse with
      | nil => rw [hcore] at hx; simp at hx
      | cons y ys =>
          rw [hcore] at hx
          simp at hx
          simp [hx]
    exact dropWhile_slash_head s.data x hxd
  · intro hx
    rw [hdata, List.getLast?_reverse] at hx
    exact dropWhile_slash_head (s.data.dropWhile (fun c => c = '/')).reverse x hx

/-! ### Claim theorems for the upload queue manager -/

/-- Claim C1: enqueueing N tasks through `queue_upload` and then draining
invokes the upload capability exactly N times, each invocation receiving
exactly the `(registry_name, filepath)` pair of one enqueued task, in the
original FIFO enqueue order. -/
theorem claim1_fifo_invocations (upload : UploadCap)
    (reqs : List (String × String)) :
    (drain upload (enqueueAll reqs initManager)).invocations
        = reqs.map (fun r => { registry_name := r.1, filepath := r.2 }) ∧
    (drain upload (enqueueAll reqs initManager)).invocations.length
        = reqs.length := by
  have h : (drain upload (enqueueAll reqs initManager)).invocations
      = reqs.map (fun r => { registry_name := r.1, filepath := r.2 }) := by
    rw [drain, drainList_invocations, enqueueAll_queue]
    simp [initManager]
  exact ⟨h, by rw [h]; simp⟩

/-- Claim C2: when the upload capability always raises, the worker
catches every exception, logs the warning line for every task, drops the
task without retrying (each task is attempted exactly once), and the
exception never propagates — `drain` is a total function returning a
state with `pending_count = 0`. -/
theorem claim2_failures_swallowed (err : String → String → String)
    (reqs : List (String × String)) :
    (drain (fun n p => Except.error (err n p))
        (enqueueAll reqs initManager)).state.pending_count = 0 ∧
    (drain (fun n p => Except.error (err n p))
        (enqueueAll reqs initManager)).invocations.length = reqs.length ∧
    (drain (fun n p => Except.error (err n p))
        (enqueueAll reqs initManager)).logs
      = reqs.map (fun q => LogEntry.warning
          ("Failed to upload model " ++ q.1 ++ " with " ++ q.2
            ++ ":\n" ++ err q.1 q.2)) := by
  refine ⟨?_, ?_, ?_⟩
  · rw [drain, drainList_pending, enqueueAll_pending, enqueueAll_queue]
    simp [initManager]
  · rw [drain, drainList_invocations, enqueueAll_queue]
    simp [initManager]
  · rw [drain, drainList_logs, enqueueAll_queue]
    simp [initManager, processLog]

/-- Claim C4: `queue_upload` increments `pending_count` by exactly one
while appending exactly one task; every worker iteration decrements
`pending_count` by exactly one, whatever the upload capability does
(success or failure, never twice); from a fresh manager `pending_count`
is never negative in any reachable state; and after enqueueing any
sequence of tasks and draining once, `pending_count` is 0. -/
theorem claim4_pending_invariant :
    (∀ (s : ManagerState) (n p : String),
        (queue_upload s n p).pending_count = s.pending_count + 1 ∧
        (queue_upload s n p).queue
          = s.queue ++ [{ registry_name := n, filepath := p }]) ∧
    (∀ (upload : UploadCap) (s s2 : ManagerState) (t : UploadTask)
        (log : LogEntry),
        workerStep upload s = some (s2, t, log) →
        s2.pending_count = s.pending_count - 1) ∧
    (∀ (upload : UploadCap) (s : ManagerState),
        Reachable upload initManager s → 0 ≤ s.pending_count) ∧
    (∀ (upload : UploadCap) (reqs : List (String × String)),
        (drain upload (enqueueAll reqs initManager)).state.pending_count
          = 0) := by
  refine ⟨?_, ?_, ?_, ?_⟩
  · intro s n p
    exact ⟨rfl, rfl⟩
  · intro upload s s2 t log h
    unfold workerStep at h
    cases hq : s.queue with
    | nil => rw [hq] at h; simp at h
    | cons t0 rest =>
        rw [hq] at h
        simp at h
        rw [← h.1]
  · intro upload s h
    rw [reachable_pending_eq_length upload s h]
    exact Int.natCast_nonneg _
  · intro upload reqs
    rw [drain, drainList_pending, enqueueAll_pending, enqueueAll_queue]
    simp [initManager]

/-- Witness for C4 at concrete inputs: a single enqueue keeps the count
non-negative (via the reachability invariant), a concrete worker step on
a one-task queue decrements the count from 1 to 0, and an
enqueue-then-drain run ends with `pending_count = 0`. -/
theorem claim4_pending_invariant_witness :
    0 ≤ (queue_upload initManager "org/ts/m" "/tmp/a.ckpt").pending_count ∧
    ({ queue := [], pending_count := 0 } : ManagerState).pending_count
      = ({ queue := [{ registry_name := "a", filepath := "b" }],
           pending_count := 1 } : ManagerState).pending_count - 1 ∧
    (drain (fun _ _ => Except.ok ())
        (enqueueAll [("org/ts/m", "/tmp/a.ckpt")] initManager)).state.pending_count
      = 0 := by
  refine ⟨?_, ?_, ?_⟩
  · exact claim4_pending_invariant.2.2.1 (fun _ _ => Except.ok ()) _
      (Reachable.enqueue "org/ts/m" "/tmp/a.ckpt" (Reachable.refl initManager))
  · exact claim4_pending_invariant.2.1 (fun _ _ => Except.ok ())
      { queue := [{ registry_name := "a", filepath := "b" }], pending_count := 1 }
      { queue := [], pending_count := 0 }
      { registry_name := "a", filepath := "b" }
      (LogEntry.debug "Successfully uploaded model: a")
      (by decide)
  · exact claim4_pending_invariant.2.2.2 (fun _ _ => Except.ok ())
      [("org/ts/m", "/tmp/a.ckpt")]

theorem countSlashes_slash : countSlashes "/" = 1 := rfl

/-- The result of the zero-separator branch of `_update_model_name`, when
it succeeds, has exactly two slashes, provided the model component and
the teamspace components are slash-free and every available teamspace
name has exactly one slash (the shape `org/teamspace` produced by
`_list_available_teamspaces`). -/
theorem zero_branch_two_slashes (amb : Option Teamspace)
    (avail : List String) (m r : String) (hm : countSlashes m = 0)
    (hamb : teamspaceSlashFree amb)
    (havail : ∀ n ∈ avail, countSlashes n = 1)
    (h : (match amb with
          | some ts => Except.ok (ts.owner_name ++ "/" ++ ts.name ++ "/" ++ m)
          | none =>
              match avail with
              | [t] => Except.ok (t ++ "/" ++ m)
              | _ => Except.error (ResolveError.runtimeError
                  (multipleTeamspacesMsg avail)))
        = Except.ok r) :
    countSlashes r = 2 := by
  cases amb with
  | some ts =>
      simp at h
      rw [← h]
      simp [countSlashes_append, countSlashes_slash, hamb.1, hamb.2, hm]
  | none =>
      cases avail with
      | nil => simp at h
      | cons t rest =>
          cases rest with
          | nil =>
              simp at h
              rw [← h]
              have ht : countSlashes t = 1 := havail t (by simp)
              simp [countSlashes_append, countSlashes_slash, ht, hm]
          | cons t2 rest2 => simp at h

/-- Evaluation of the zero-separator branch with no ambient teamspace,
for any name taking that branch. -/
theorem update_model_name_no_ambient (reg : Option String) (d : String)
    (avail : List String) (h : zeroSepName reg) :
    update_model_name reg d none avail
      = match avail with
        | [t] => Except.ok (t ++ "/" ++ zeroSepModel reg d)
        | _ => Except.error (ResolveError.runtimeError
            (multipleTeamspacesMsg avail)) := by
  cases reg with
  | none => rw [update_model_name_falsy none d none avail rfl]; rfl
  | some s =>
      by_cases hs : s = ""
      · subst hs
        rw [update_model_name_falsy (some "") d none avail rfl]
        rfl
      · have hne : (s == "") = false := by simp [hs]
        have h0 : countSlashes s = 0 := h
        rw [update_model_name_zero_sep s d none avail hne h0]
        simp [zeroSepModel, falsyName, hne]

/-! ### Claim theorems for the registry name resolver -/

/-- Counterexample to claim C3: on the one-separator input
`teamspace/model`, `_update_model_name` does not return the input
unchanged — it appends the default model name. -/
theorem claim3_counterexample :
    update_model_name (some "teamspace/model") "BoringModel_20250102-1213"
        none [] ≠ Except.ok "teamspace/model" := by
  intro h
  have e : update_model_name (some "teamspace/model")
      "BoringModel_20250102-1213" none []
      = Except.ok "teamspace/model/BoringModel_20250102-1213" := by
    rw [update_model_name_one_sep _ _ _ _ (by decide)]
    rfl
  rw [e] at h
  have h2 : "teamspace/model/BoringModel_20250102-1213" = "teamspace/model" := by
    injection h
  exact absurd h2 (by decide)

/-- Claim C3 (amended): on a one-separator input the first component is
indeed treated as part of the teamspace path and nothing is prepended,
but the name is not returned unchanged: the default model name is
appended, giving `input/default_model_name`. -/
theorem claim3_one_sep_appends_default (s d : String)
    (amb : Option Teamspace) (avail : List String)
    (h : countSlashes s = 1) :
    update_model_name (some s) d amb avail = Except.ok (s ++ "/" ++ d) :=
  update_model_name_one_sep s d amb avail h

/-- Witness for the amended C3 at a concrete one-separator input. -/
theorem claim3_one_sep_appends_default_witness :
    countSlashes "org-name/teamspace" = 1 ∧
    update_model_name (some "org-name/teamspace")
        "BoringModel_20250102-1213" none []
      = Except.ok "org-name/teamspace/BoringModel_20250102-1213" := by
  refine ⟨by decide, ?_⟩
  rw [claim3_one_sep_appends_default "org-name/teamspace"
      "BoringModel_20250102-1213" none [] (by decide)]
  rfl

/-- Claim C6: on a zero-separator (or absent, in which case the default
model name stands in) name with an ambient teamspace, resolution yields
`owner_name/teamspace_name/model`. -/
theorem claim6_ambient_teamspace_resolution (reg : Option String)
    (d : String) (ts : Teamspace) (avail : List String)
    (h : zeroSepName reg) :
    update_model_name reg d (some ts) avail
      = Except.ok (ts.owner_name ++ "/" ++ ts.name ++ "/" ++ zeroSepModel reg d) := by
  cases reg with
  | none =>
      rw [update_model_name_falsy none d (some ts) avail rfl]
      rfl
  | some s =>
      by_cases hs : s = ""
      · subst hs
        rw [update_model_name_falsy (some "") d (some ts) avail rfl]
        rfl
      · have hne : (s == "") = false := by simp [hs]
        have h0 : countSlashes s = 0 := h
        rw [update_model_name_zero_sep s d (some ts) avail hne h0]
        simp [zeroSepModel, falsyName, hne]

/-- Witness for C6: the spec scenario — resolving the empty name with
default `Model_20250101-0000` under ambient teamspace
owner `acme`, name `prod` yields `acme/prod/Model_20250101-0000`. -/
theorem claim6_ambient_teamspace_resolution_witness :
    zeroSepName (some "") ∧
    update_model_name (some "") "Model_20250101-0000"
        (some { owner_name := "acme", name := "prod" }) []
      = Except.ok "acme/prod/Model_20250101-0000" := by
  refine ⟨by simp [zeroSepName, countSlashes], ?_⟩
  rw [claim6_ambient_teamspace_resolution (some "") "Model_20250101-0000"
      { owner_name := "acme", name := "prod" } []
      (by simp [zeroSepName, countSlashes])]
  rfl

/-- Claim C8: a name with more than two separators is rejected with the
`ValueError`, whatever the default model name, the ambient teamspace and
the available teamspaces are. -/
theorem claim8_reject_too_many_separators (s d : String)
    (amb : Option Teamspace) (avail : List String)
    (h : 2 < countSlashes s) :
    update_model_name (some s) d amb avail
      = Except.error (ResolveError.valueError (invalidNameMsg s)) :=
  update_model_name_gt_two s d amb avail h

/-- Witness for C8 at the concrete input `a/b/c/d`, with a non-trivial
ambient teamspace and teamspace list to show they are ignored. -/
theorem claim8_reject_too_many_separators_witness :
    2 < countSlashes "a/b/c/d" ∧
    update_model_name (some "a/b/c/d") "Model_20250101-0000"
        (some { owner_name := "acme", name := "prod" }) ["acme/prod"]
      = Except.error (ResolveError.valueError (invalidNameMsg "a/b/c/d")) := by
  exact ⟨by decide, claim8_reject_too_many_separators "a/b/c/d"
    "Model_20250101-0000" (some { owner_name := "acme", name := "prod" })
    ["acme/prod"] (by decide)⟩

/-- Claim C5: a two-separator name resolves to itself; every successful
resolution (with slash-free default name and teamspace components, and
available teamspace names of the `org/teamspace` shape) yields a name
with exactly two separators; hence resolution is idempotent — resolving
an already-resolved name a second time changes nothing. -/
theorem claim5_resolution_idempotent :
    (∀ (s d : String) (amb : Option Teamspace) (avail : List String),
        countSlashes s = 2 →
        update_model_name (some s) d amb avail = Except.ok s) ∧
    (∀ (reg : Option String) (d : String) (amb : Option Teamspace)
        (avail : List String) (r : String),
        countSlashes d = 0 →
        teamspaceSlashFree amb →
        (∀ n ∈ avail, countSlashes n = 1) →
        update_model_name reg d amb avail = Except.ok r →
        countSlashes r = 2 ∧
        (∀ (d2 : String) (amb2 : Option Teamspace) (avail2 : List String),
            update_model_name (some r) d2 amb2 avail2 = Except.ok r)) := by
  have main : ∀ (reg : Option String) (d : String) (amb : Option Teamspace)
      (avail : List String) (r : String),
      countSlashes d = 0 → teamspaceSlashFree amb →
      (∀ n ∈ avail, countSlashes n = 1) →
      update_model_name reg d amb avail = Except.ok r →
      countSlashes r = 2 := by
    intro reg d amb avail r hd hamb havail h
    cases reg with
    | none =>
        rw [update_model_name_falsy none d amb avail rfl] at h
        exact zero_branch_two_slashes amb avail d r hd hamb havail h
    | some s =>
        by_cases hs : s = ""
        · subst hs
          rw [update_model_name_falsy (some "") d amb avail rfl] at h
          exact zero_branch_two_slashes amb avail d r hd hamb havail h
        · have hne : (s == "") = false := by simp [hs]
          rcases Nat.lt_or_ge 2 (countSlashes s) with hgt | hle
          · rw [update_model_name_gt_two s d amb avail hgt] at h
            simp at h
          · rcases (by omega :
                countSlashes s = 0 ∨ countSlashes s = 1 ∨ countSlashes s = 2)
              with h0 | h1 | h2
            · rw [update_model_name_zero_sep s d amb avail hne h0] at h
              exact zero_branch_two_slashes amb avail s r h0 hamb havail h
            · rw [update_model_name_one_sep s d amb avail h1] at h
              simp at h
              rw [← h]
              simp [countSlashes_append, countSlashes_slash, h1, hd]
            · rw [update_model_name_two_sep s d amb avail h2] at h
              simp at h
              rw [← h]
              exact h2
  refine ⟨fun s d amb avail h => update_model_name_two_sep s d amb avail h, ?_⟩
  intro reg d amb avail r hd hamb havail h
  have h2 := main reg d amb avail r hd hamb havail h
  exact ⟨h2, fun d2 amb2 avail2 => update_model_name_two_sep r d2 amb2 avail2 h2⟩

/-- Witness for C5: the two-separator input `org/ts/model` resolves to
itself, and a concrete zero-separator resolution under an ambient
teamspace yields a two-separator name that a second resolution leaves
unchanged. -/
theorem claim5_resolution_idempotent_witness :
    countSlashes "org/ts/model" = 2 ∧
    update_model_name (some "org/ts/model") "D" none [] = Except.ok "org/ts/model" ∧
    countSlashes "acme/prod/m" = 2 ∧
    update_model_name (some "acme/prod/m") "D2" none [] = Except.ok "acme/prod/m" := by
  refine ⟨by decide, claim5_resolution_idempotent.1 "org/ts/model" "D" none [] (by decide),
    ?_, ?_⟩
  all_goals {
    have h := claim5_resolution_idempotent.2 (some "m") "D"
      (some { owner_name := "acme", name := "prod" }) [] "acme/prod/m"
      (by decide) (by exact ⟨by decide, by decide⟩)
      (fun n hn => absurd hn (List.not_mem_nil n)) (by rfl)
    first
      | exact h.1
      | exact h.2 "D2" none []
  }

/-- Claim C7: a zero-separator (or absent) name with no ambient teamspace
resolves to `that_teamspace/input` when exactly one teamspace is
available, and otherwise (zero or two-or-more available) raises the
`RuntimeError` whose message starts by reporting that no teamspace is
defined and then enumerates the available options joined by
newline-tab. -/
theorem claim7_single_or_ambiguous_teamspace (reg : Option String)
    (d : String) (avail : List String) (h : zeroSepName reg) :
    (∀ t : String, avail = [t] →
        update_model_name reg d none avail
          = Except.ok (t ++ "/" ++ zeroSepModel reg d)) ∧
    (avail.length ≠ 1 →
        update_model_name reg d none avail
          = Except.error (ResolveError.runtimeError
              (multipleTeamspacesMsg avail))) := by
  have e := update_model_name_no_ambient reg d avail h
  constructor
  · intro t ht
    subst ht
    rw [e]
  · intro hlen
    cases avail with
    | nil => rw [e]
    | cons t rest =>
        cases rest with
        | nil => exact absurd rfl hlen
        | cons t2 rest2 => rw [e]

/-- Witness for C7: the spec scenarios — one available teamspace
prepends it; two available teamspaces raise the error enumerating both;
zero available teamspaces raise the error with the empty enumeration. -/
theorem claim7_single_or_ambiguous_teamspace_witness :
    zeroSepName (some "model-name") ∧
    update_model_name (some "model-name") "Model_20250101-0000" none ["acme/prod"]
      = Except.ok "acme/prod/model-name" ∧
    update_model_name (some "model-name") "Model_20250101-0000" none ["a/x", "b/y"]
      = Except.error (ResolveError.runtimeError
          "Teamspace is not defined and there are multiple teamspaces available:\na/x\n\tb/y") ∧
    update_model_name (some "model-name") "Model_20250101-0000" none []
      = Except.error (ResolveError.runtimeError
          "Teamspace is not defined and there are multiple teamspaces available:\n") := by
  have hz : zeroSepName (some "model-name") :=
    show countSlashes "model-name" = 0 by decide
  refine ⟨hz, ?_, ?_, ?_⟩
  · rw [(claim7_single_or_ambiguous_teamspace (some "model-name")
      "Model_20250101-0000" ["acme/prod"] hz).1 "acme/prod" rfl]
    rfl
  · rw [(claim7_single_or_ambiguous_teamspace (some "model-name")
      "Model_20250101-0000" ["a/x", "b/y"] hz).2 (by decide)]
    rfl
  · rw [(claim7_single_or_ambiguous_teamspace (some "model-name")
      "Model_20250101-0000" [] hz).2 (by decide)]
    rfl

/-- Claim C10: `_upload_model` raises the `RuntimeError` when the
registry name is unset (`None` or empty) — the raise means the queue and
`pending_count` are untouched, as the error result carries no successor
state — and otherwise enqueues exactly one `(model_registry, filepath)`
task, incrementing `pending_count` by one. -/
theorem claim10_upload_hook_guard (reg : Option String) (fp : String)
    (mgr : ManagerState) :
    (falsyName reg = true →
        upload_model_hook reg fp mgr = Except.error unsetNameMsg) ∧
    (∀ s : String, reg = some s → (s == "") = false →
        upload_model_hook reg fp mgr
          = Except.ok { queue := mgr.queue ++ [{ registry_name := s, filepath := fp }],
                        pending_count := mgr.pending_count + 1 }) := by
  constructor
  · intro h
    simp [upload_model_hook, h]
  · intro s hreg hs
    subst hreg
    simp [upload_model_hook, falsyName, hs, queue_upload]

/-- Witness for C10: the hook rejects `None` and the empty name on a
fresh manager, and enqueues exactly one task for a set name. -/
theorem claim10_upload_hook_guard_witness :
    upload_model_hook none "/tmp/a.ckpt" initManager = Except.error unsetNameMsg ∧
    upload_model_hook (some "") "/tmp/a.ckpt" initManager = Except.error unsetNameMsg ∧
    upload_model_hook (some "org/ts/m") "/tmp/a.ckpt" initManager
      = Except.ok { queue := [{ registry_name := "org/ts/m", filepath := "/tmp/a.ckpt" }],
                    pending_count := 1 } := by
  refine ⟨?_, ?_, ?_⟩
  · exact (claim10_upload_hook_guard none "/tmp/a.ckpt" initManager).1 rfl
  · exact (claim10_upload_hook_guard (some "") "/tmp/a.ckpt" initManager).1 rfl
  · rw [(claim10_upload_hook_guard (some "org/ts/m") "/tmp/a.ckpt"
      initManager).2 "org/ts/m" rfl (by decide)]
    rfl

/-- Claim C9: for a non-empty `model_name`, `__init__` stores the name
with all leading and trailing slashes stripped (the original is exactly
leading slashes, the stored core — which neither starts nor ends with a
slash — and trailing slashes); consequently `/org/teamspace/model/` is
stored as the two-separator name `org/teamspace/model`, which resolution
then accepts unchanged. -/
theorem claim9_init_strips_slashes :
    (∀ s : String, s ≠ "" → initModelRegistry (some s) = some (strip_slashes s)) ∧
    (∀ s : String, ∃ a b : Nat,
        s.data = List.replicate a '/' ++ (strip_slashes s).data
            ++ List.replicate b '/') ∧
    (∀ (s : String) (x : Char),
        ((strip_slashes s).data.head? = some x → x ≠ '/') ∧
        ((strip_slashes s).data.getLast? = some x → x ≠ '/')) ∧
    (initModelRegistry (some "/org/teamspace/model/") = some "org/teamspace/model" ∧
     countSlashes "org/teamspace/model" = 2 ∧
     (∀ (d : String) (amb : Option Teamspace) (avail : List String),
        update_model_name (initModelRegistry (some "/org/teamspace/model/"))
            d amb avail
          = Except.ok "org/teamspace/model")) := by
  refine ⟨?_, strip_slashes_decomp, strip_slashes_no_border_slash, ?_, by decide, ?_⟩
  · intro s hs
    simp [initModelRegistry, hs]
  · decide
  · intro d amb avail
    have e : initModelRegistry (some "/org/teamspace/model/")
        = some "org/teamspace/model" := by decide
    rw [e]
    exact update_model_name_two_sep "org/teamspace/model" d amb avail (by decide)

/-- Witness for C9 at the concrete input `/org/teamspace/model/`. -/
theorem claim9_init_strips_slashes_witness :
    "/org/teamspace/model/" ≠ "" ∧
    initModelRegistry (some "/org/teamspace/model/")
      = some (strip_slashes "/org/teamspace/model/") ∧
    ((strip_slashes "/org/teamspace/model/").data.head? = some 'o' → 'o' ≠ '/') ∧
    update_model_name (initModelRegistry (some "/org/teamspace/model/"))
        "Model_20250101-0000" none []
      = Except.ok "org/teamspace/model" := by
  refine ⟨by decide, ?_, ?_, ?_⟩
  · exact claim9_init_strips_slashes.1 "/org/teamspace/model/" (by decide)
  · exact (claim9_init_strips_slashes.2.2.1 "/org/teamspace/model/" 'o').1
  · exact claim9_init_strips_slashes.2.2.2.2.2 "Model_20250101-0000" none []

end LitModels
